import Mathlib

/-!
Verification development for the stale-bot issues processor
(`IssuesProcessor` and its batch driver).

Timestamps are modelled as natural numbers of milliseconds since the
epoch.  The run's clock is frozen to a single value `now`; the source's
`new Date().toString()` / `toISOString().split('.')[0]` second-resolution
round-trips are modelled by truncating the clock to whole seconds.

Platform responses (comment listing, label-event listing, pull-request
fetch) are inputs, collected in an `Env`; a call that can fail on the
platform side is an `Except Unit` value.  Side-effecting platform calls
actually issued by the processor are recorded in order as `Action`s;
a call suppressed by the debug-only flag is not recorded.
-/

namespace Stale

/-- Milliseconds in one day (`1000 * 60 * 60 * 24`). -/
def msPerDay : Int := 86400000

/-- Second-resolution truncation of a millisecond clock value, as produced
by `new Date().toString()` and `toISOString().split('.')[0]`. -/
def truncSec (t : Nat) : Nat := t / 1000 * 1000

/-- A label on an issue. -/
structure ILabel where
  name : String
deriving DecidableEq

/-- A platform user: login plus account type (`"User"` for humans). -/
structure IUser where
  login : String
  type : String
deriving DecidableEq

/-- A comment: optional author, optional body, optional creation time. -/
structure IComment where
  user : Option IUser
  body : Option String
  created_at : Option Nat
deriving DecidableEq

/-- A milestone reference (only the title matters). -/
structure IMilestone where
  title : String
deriving DecidableEq

/-- An entry of the issue event history, as consumed by
`getLabelCreationDate` (`event.event` and `event.label.name`). -/
structure IIssueEvent where
  event : String
  labelName : String
  created_at : Nat
deriving DecidableEq

/-- Pull-request detail (draft flag and head branch ref). -/
structure IPullRequest where
  draft : Bool
  headRef : String
deriving DecidableEq

/-- The issue entity under evaluation (mutable fields `updated_at`,
`isStale`, `markedStaleThisRun` are rewritten during the run). -/
structure Issue where
  number : Nat
  title : String
  created_at : Nat
  updated_at : Nat
  labels : List ILabel
  isPullRequest : Bool
  state : String
  locked : Bool
  milestone : Option IMilestone
  assignees : List IUser
  user : Option IUser
  isStale : Bool
  markedStaleThisRun : Bool := false
deriving DecidableEq

/-- Configuration options for one run.  Numeric issue/PR overrides use
`Option Int` where the source uses a not-a-number sentinel for "unset";
boolean overrides use `Option Bool` where the source's `isBoolean` check
distinguishes a set value. -/
structure IIssuesProcessorOptions where
  staleIssueMessage : String
  stalePrMessage : String
  closeIssueMessage : String
  closePrMessage : String
  staleIssueLabel : String
  stalePrLabel : String
  closeIssueLabel : String
  closePrLabel : String
  daysBeforeStale : Int
  daysBeforeIssueStale : Option Int
  daysBeforePrStale : Option Int
  daysBeforeClose : Int
  daysBeforeIssueClose : Option Int
  daysBeforePrClose : Option Int
  daysBeforeTriageReminders : Int
  daysBeforeReplyReminder : Int
  onlyLabels : String
  onlyIssueLabels : String
  onlyPrLabels : String
  anyOfLabels : String
  anyOfIssueLabels : String
  anyOfPrLabels : String
  exemptIssueLabels : String
  exemptPrLabels : String
  removeStaleWhenUpdated : Bool
  removeIssueStaleWhenUpdated : Option Bool
  removePrStaleWhenUpdated : Option Bool
  debugOnly : Bool
  deleteBranch : Bool
  startDate : Option Nat
  mlflow : Bool
  labelsToAddWhenUnstale : String
  labelsToRemoveWhenUnstale : String
  operationsPerRun : Nat
  exemptMilestoneTitles : List String
  exemptAllMilestones : Bool
  exemptAssigneeLogins : List String
  exemptAllAssignees : Bool
  exemptDraftPr : Bool
  ignoreUpdates : Bool
  ignoreIssueUpdates : Option Bool
  ignorePrUpdates : Option Bool
deriving DecidableEq

/-- Split a character list at the separators used by `wordsToList`
(comma and space); `cur` accumulates the current word reversed. -/
def splitWords (cur : List Char) : List Char → List (List Char)
  | [] => [cur.reverse]
  | c :: rest =>
    if c == ',' || c == ' ' then cur.reverse :: splitWords [] rest
    else splitWords (c :: cur) rest

/-- Modelled from the spec: `wordsToList` ("split a comma/space string
into a list of labels"); the function's own source file is not present. -/
def wordsToList (s : String) : List String :=
  ((splitWords [] s.data).map (fun w => String.mk w)).filter (fun w => w != "")

/-- Character-wise lower-casing (`toLowerCase`). -/
def lowerStr (s : String) : String := String.mk (s.data.map Char.toLower)

/-- Modelled from the spec: `cleanLabel` normalizes a label for
case/format-insensitive comparison; its source file is not present. -/
def cleanLabel (label : String) : String := lowerStr label

/-- Modelled from the spec: `isLabeled` ("is an issue labeled X?", with
normalized comparison); its source file is not present. -/
def isLabeled (issue : Issue) (label : String) : Bool :=
  issue.labels.any (fun l => cleanLabel l.name == cleanLabel label)

/-- Modelled from the spec: `shouldMarkWhenStale` is true unless the
resolved days-before-stale is a negative "never mark stale" sentinel;
its source file is not present. -/
def shouldMarkWhenStale (daysBeforeStale : Int) : Bool :=
  decide (0 ≤ daysBeforeStale)

/-- Modelled from the spec: `isDateMoreRecentThan` compares "is date A
more recent than date B"; its source file is not present. -/
def isDateMoreRecentThan (a b : Nat) : Bool := decide (b < a)

/-- Does the character list `s` start with `t`? -/
def startsWith (t s : List Char) : Bool :=
  match t, s with
  | [], _ => true
  | _ :: _, [] => false
  | a :: as, b :: bs => a == b && startsWith as bs

/-- Does the character list `s` contain `t` as a contiguous run? -/
def containsSeq (t s : List Char) : Bool :=
  match s with
  | [] => t.isEmpty
  | _ :: rest => startsWith t s || containsSeq t rest

/-- Substring occurrence test (for `String.prototype.includes` and the
hidden-marker scans). -/
def hasSub (s t : String) : Bool := containsSeq t.data s.data

/-- `IssuesProcessor._updatedSince`: the timestamp is within `num_days`
days of `now` (millisecond arithmetic, `<=`). -/
def updatedSince (now : Nat) (timestamp : Nat) (num_days : Int) : Bool :=
  decide ((now : Int) - (timestamp : Int) ≤ msPerDay * num_days)

/-- `IssuesProcessor.isOlderThanDaysAgo`: the timestamp is at least
`num_days` days before `now` (millisecond arithmetic, `>=`). -/
def isOlderThanDaysAgo (now : Nat) (timestamp : Nat) (num_days : Int) : Bool :=
  decide (msPerDay * num_days ≤ (now : Int) - (timestamp : Int))

/-- `IssuesProcessor.getNow`: the current time serialized without
milliseconds, i.e. truncated to whole seconds. -/
def getNow (now : Nat) : Nat := truncSec now

/-- `IssuesProcessor.createMarkdownComment`. -/
def createMarkdownComment (message : String) : String :=
  "<!-- " ++ message ++ " -->"

/-- The hidden marker for the assign-maintainer reminder. -/
def tagAssignMaintainer : String := createMarkdownComment "assign-maintainer"

/-- The hidden marker for the triage reminder. -/
def tagTriageIssue : String := createMarkdownComment "triage-issue"

/-- The hidden marker for the reminder to maintainers. -/
def tagReminderToMaintainers : String :=
  createMarkdownComment "reminder-to-maintainers"

/-- The hidden marker for the reminder to the issue author. -/
def tagReminderToIssueAuthor : String :=
  createMarkdownComment "reminder-to-issue-author"

/-- Join strings with a separator (`Array.prototype.join`). -/
def joinWith (sep : String) : List String → String
  | [] => ""
  | [x] => x
  | x :: rest => x ++ sep ++ joinWith sep rest

/-- `createMentions` from the mlflow branch of `processIssue`. -/
def createMentions (logins : List String) : String :=
  joinWith " " (logins.map (fun login => "@" ++ login))

/-- `isMaintainer` from the mlflow branch of `processIssue`: human-type
user whose login is in the maintainers list. -/
def isMaintainer (maintainers : List String) (u : IUser) : Bool :=
  u.type == "User" && maintainers.contains u.login

/-- The automation account name recognized as the bot itself. -/
def mlflowAutomationUsername : String := "mlflow-automation"

/-- `isBot` from the mlflow branch of `processIssue`: a missing author is
not a bot; otherwise any non-human type or the automation account. -/
def isBot (u : Option IUser) : Bool :=
  match u with
  | none => false
  | some u => u.type != "User" || u.login == mlflowAutomationUsername

/-- `IssuesProcessor._getDaysBeforeIssueStale`. -/
def getDaysBeforeIssueStale (opts : IIssuesProcessorOptions) : Int :=
  opts.daysBeforeIssueStale.getD opts.daysBeforeStale

/-- `IssuesProcessor._getDaysBeforePrStale`. -/
def getDaysBeforePrStale (opts : IIssuesProcessorOptions) : Int :=
  opts.daysBeforePrStale.getD opts.daysBeforeStale

/-- `IssuesProcessor._getDaysBeforeIssueClose`. -/
def getDaysBeforeIssueClose (opts : IIssuesProcessorOptions) : Int :=
  opts.daysBeforeIssueClose.getD opts.daysBeforeClose

/-- `IssuesProcessor._getDaysBeforePrClose`. -/
def getDaysBeforePrClose (opts : IIssuesProcessorOptions) : Int :=
  opts.daysBeforePrClose.getD opts.daysBeforeClose

/-- `IssuesProcessor._getOnlyLabels`. -/
def getOnlyLabels (opts : IIssuesProcessorOptions) (issue : Issue) : String :=
  if issue.isPullRequest then
    if opts.onlyPrLabels != "" then opts.onlyPrLabels else opts.onlyLabels
  else
    if opts.onlyIssueLabels != "" then opts.onlyIssueLabels else opts.onlyLabels

/-- `IssuesProcessor._getAnyOfLabels`. -/
def getAnyOfLabels (opts : IIssuesProcessorOptions) (issue : Issue) : String :=
  if issue.isPullRequest then
    if opts.anyOfPrLabels != "" then opts.anyOfPrLabels else opts.anyOfLabels
  else
    if opts.anyOfIssueLabels != "" then opts.anyOfIssueLabels else opts.anyOfLabels

/-- `IssuesProcessor._shouldRemoveStaleWhenUpdated`. -/
def shouldRemoveStaleWhenUpdated (opts : IIssuesProcessorOptions)
    (issue : Issue) : Bool :=
  if issue.isPullRequest then
    opts.removePrStaleWhenUpdated.getD opts.removeStaleWhenUpdated
  else
    opts.removeIssueStaleWhenUpdated.getD opts.removeStaleWhenUpdated

/-- Modelled from the spec: the `Milestones` eligibility policy
(its class source is not present): exempt when the issue has a
milestone and either all milestones are exempt or the milestone's
title is in the configured exempt list. -/
def shouldExemptMilestones (opts : IIssuesProcessorOptions)
    (issue : Issue) : Bool :=
  match issue.milestone with
  | none => false
  | some m => opts.exemptAllMilestones || opts.exemptMilestoneTitles.contains m.title

/-- Modelled from the spec: the `Assignees` eligibility policy
(its class source is not present): exempt when the issue has an
assignee and either all assignees are exempt or some assignee's
login is in the configured exempt list. -/
def shouldExemptAssignees (opts : IIssuesProcessorOptions)
    (issue : Issue) : Bool :=
  !issue.assignees.isEmpty &&
    (opts.exemptAllAssignees ||
      issue.assignees.any (fun a => opts.exemptAssigneeLogins.contains a.login))

/-- Modelled from the spec: the `IgnoreUpdates` eligibility policy (its
class source is not present): the resolved issue/PR override, else the
global toggle. -/
def shouldIgnoreUpdates (opts : IIssuesProcessorOptions)
    (issue : Issue) : Bool :=
  if issue.isPullRequest then
    opts.ignorePrUpdates.getD opts.ignoreUpdates
  else
    opts.ignoreIssueUpdates.getD opts.ignoreUpdates

/-- A side-effecting platform call actually issued (not recorded when
suppressed by the debug-only flag). -/
inductive Action where
  | createComment (body : String)
  | addLabels (labels : List String)
  | removeLabel (label : String)
  | closeIssue
  | deleteBranch (ref : String)
deriving DecidableEq

/-- Per-issue processing state: the (mutated) issue, the ordered platform
calls issued so far, and the number of operations consumed during this
issue's processing (`_consumeIssueOperation` advances the run-wide and the
per-issue counter together, so one number tracks both deltas). -/
structure PState where
  issue : Issue
  effects : List Action := []
  ops : Nat := 0
deriving DecidableEq

/-- `IssuesProcessor._consumeIssueOperation`. -/
def consumeIssueOperation (st : PState) : PState :=
  { st with ops := st.ops + 1 }

/-- Record an actually-issued platform call. -/
def emit (st : PState) (a : Action) : PState :=
  { st with effects := st.effects ++ [a] }

/-- The platform collaborator's responses for one issue: the comment
listing keyed by the `since` date, the issue event listing, and the
pull-request fetch.  `Except Unit` models a platform error. -/
structure Env where
  comments : Nat → Except Unit (List IComment)
  events : Except Unit (List IIssueEvent)
  pullRequest : Except Unit IPullRequest

/-- `IssuesProcessor.createComment`: when not in debug mode, consume one
operation and issue the create-comment call (a platform error there is
caught and logged).  In debug mode nothing happens. -/
def createComment (opts : IIssuesProcessorOptions) (st : PState)
    (body : String) : PState :=
  if opts.debugOnly then st
  else emit (consumeIssueOperation st) (.createComment body)

/-- `IssuesProcessor.listIssueComments`: consume one operation; a platform
error is caught and yields the empty list. -/
def listIssueComments (env : Env) (st : PState)
    (sinceDate : Nat) : PState × List IComment :=
  let st := consumeIssueOperation st
  match env.comments sinceDate with
  | .ok cs => (st, cs)
  | .error _ => (st, [])

/-- `IssuesProcessor.getLabelCreationDate`: consume one operation, list
the issue events (this call site is not wrapped in a try/catch, so a
platform error propagates), and find the most recent `labeled` event
whose normalized label matches. -/
def getLabelCreationDate (env : Env) (st : PState)
    (label : String) : Except Unit (PState × Option Nat) :=
  let st := consumeIssueOperation st
  match env.events with
  | .error e => .error e
  | .ok events =>
    .ok (st, (events.reverse.find? (fun ev =>
      ev.event == "labeled" && cleanLabel ev.labelName == cleanLabel label)).map
        (fun ev => ev.created_at))

/-- `IssuesProcessor.getPullRequest`: consume one operation; a platform
error is caught and yields no data. -/
def getPullRequest (env : Env) (st : PState) : PState × Option IPullRequest :=
  let st := consumeIssueOperation st
  match env.pullRequest with
  | .ok pr => (st, some pr)
  | .error _ => (st, none)

/-- `IssuesProcessor._removeLabel`: consume one operation; the removal
call is only issued when not in debug mode (an error there is caught). -/
def removeLabel (opts : IIssuesProcessorOptions) (st : PState)
    (label : String) : PState :=
  let st := consumeIssueOperation st
  if opts.debugOnly then st else emit st (.removeLabel label)

/-- `IssuesProcessor._removeStaleLabel`. -/
def removeStaleLabel (opts : IIssuesProcessorOptions) (st : PState)
    (staleLabel : String) : PState :=
  removeLabel opts st staleLabel

/-- `IssuesProcessor._removeCloseLabel`: when a close label is configured
and present on the issue, remove it. -/
def removeCloseLabel (opts : IIssuesProcessorOptions) (st : PState)
    (closeLabel : String) : PState :=
  if closeLabel == "" then st
  else if isLabeled st.issue closeLabel then removeLabel opts st closeLabel
  else st

/-- `IssuesProcessor._markStale`: rewrite `updated_at` to the current
time (serialized at second resolution), then unless the message is
skipped consume one operation and (when not in debug mode) post the
stale comment, then consume one operation and (when not in debug mode)
add the stale label.  Errors of both calls are caught. -/
def markStale (opts : IIssuesProcessorOptions) (now : Nat) (st : PState)
    (staleMessage : String) (staleLabel : String)
    (skipMessage : Bool) : PState :=
  let st := { st with issue := { st.issue with updated_at := truncSec now } }
  let st :=
    if skipMessage then st
    else
      let st := consumeIssueOperation st
      if opts.debugOnly then st else emit st (.createComment staleMessage)
  let st := consumeIssueOperation st
  if opts.debugOnly then st else emit st (.addLabels [staleLabel])

/-- `IssuesProcessor._closeIssue`: optionally post the close message and
add the close label (one operation each), then consume one operation and
(when not in debug mode) issue the state-closed update.  Errors of each
call are caught. -/
def closeIssue (opts : IIssuesProcessorOptions) (st : PState)
    (closeMessage : String) (closeLabel : String) : PState :=
  let st :=
    if closeMessage != "" then
      let st := consumeIssueOperation st
      if opts.debugOnly then st else emit st (.createComment closeMessage)
    else st
  let st :=
    if closeLabel != "" then
      let st := consumeIssueOperation st
      if opts.debugOnly then st else emit st (.addLabels [closeLabel])
    else st
  let st := consumeIssueOperation st
  if opts.debugOnly then st else emit st .closeIssue

/-- `IssuesProcessor._deleteBranch`: fetch the pull request (error caught,
treated as no data, in which case nothing is deleted); otherwise consume
one operation and (when not in debug mode) delete the head branch. -/
def deleteBranch (opts : IIssuesProcessorOptions) (env : Env)
    (st : PState) : PState :=
  let (st, pr) := getPullRequest env st
  match pr with
  | none => st
  | some pr =>
    let st := consumeIssueOperation st
    if opts.debugOnly then st else emit st (.deleteBranch pr.headRef)

/-- `IssuesProcessor._removeLabelsWhenUnstale`: remove each configured
label (one operation each). -/
def removeLabelsWhenUnstale (opts : IIssuesProcessorOptions) (st : PState)
    (removeLabels : List String) : PState :=
  removeLabels.foldl (fun st label => removeLabel opts st label) st

/-- `IssuesProcessor._addLabelsWhenUnstale`: when the list is non-empty,
consume one operation and (when not in debug mode) add all labels in a
single call (error caught). -/
def addLabelsWhenUnstale (opts : IIssuesProcessorOptions) (st : PState)
    (labelsToAdd : List String) : PState :=
  if labelsToAdd.isEmpty then st
  else
    let st := consumeIssueOperation st
    if opts.debugOnly then st else emit st (.addLabels labelsToAdd)

/-- `IssuesProcessor._hasCommentsSince`: list the comments since the date
and keep those from a human-type author whose body does not
case-insensitively equal the stale message.  (The source's short-circuit
on an empty since-date string cannot arise with numeric timestamps.) -/
def hasCommentsSince (env : Env) (st : PState) (sinceDate : Nat)
    (staleMessage : String) : PState × Bool :=
  let (st, comments) := listIssueComments env st sinceDate
  let filteredComments := comments.filter (fun c =>
    (match c.user with
     | some u => u.type == "User"
     | none => false) &&
    (match c.body with
     | some b => lowerStr b != lowerStr staleMessage
     | none => true))
  (st, decide (0 < filteredComments.length))

/-- `IssuesProcessor._processStaleIssue`, the stale processing stage:
look up when the stale label was added (falling back to `updated_at`),
check for qualifying comments since then, resolve
`daysBeforeClose`, compute `hasUpdate`, then either un-stale, stop
because closing is disabled, close (and possibly delete the PR branch),
or do nothing. -/
def processStaleIssue (opts : IIssuesProcessorOptions) (env : Env)
    (now : Nat) (st : PState) (staleLabel : String) (staleMessage : String)
    (labelsToAddWhenUnstale : List String)
    (labelsToRemoveWhenUnstale : List String)
    (closeMessage : String) (closeLabel : String) : Except Unit PState :=
  match getLabelCreationDate env st staleLabel with
  | .error e => .error e
  | .ok (st, labelCreationDate) =>
    let markedStaleOn := labelCreationDate.getD st.issue.updated_at
    let (st, issueHasComments) := hasCommentsSince env st markedStaleOn staleMessage
    let daysBeforeClose :=
      if st.issue.isPullRequest then getDaysBeforePrClose opts
      else getDaysBeforeIssueClose opts
    let issueHasUpdate := updatedSince now st.issue.updated_at daysBeforeClose
    let shouldRemove := shouldRemoveStaleWhenUpdated opts st.issue
    if shouldRemove && issueHasComments && !st.issue.markedStaleThisRun then
      let st := removeStaleLabel opts st staleLabel
      let st := removeLabelsWhenUnstale opts st labelsToRemoveWhenUnstale
      let st := addLabelsWhenUnstale opts st labelsToAddWhenUnstale
      .ok st
    else if daysBeforeClose < 0 then .ok st
    else if !issueHasComments && !issueHasUpdate then
      let st := closeIssue opts st closeMessage closeLabel
      let st :=
        if opts.deleteBranch && st.issue.isPullRequest then
          deleteBranch opts env st
        else st
      .ok st
    else .ok st

/-- The maintainer-nudge branch of `processIssue` (entered when the
mlflow toggle is on and the issue is not stale).  `.inl st` means the
branch returned (processing of this issue stops); `.inr st` means
control falls through to the generic staleness pipeline.  The pull
request side is an intentional no-op that falls through. -/
def mlflowBranch (opts : IIssuesProcessorOptions) (maintainers : List String)
    (env : Env) (now : Nat) (st : PState) : PState ⊕ PState :=
  if st.issue.isPullRequest then .inr st
  else
  if !(isOlderThanDaysAgo now st.issue.created_at opts.daysBeforeTriageReminders) then
    .inl st
  else
  let hasMaintainerAssignee := st.issue.assignees.any (isMaintainer maintainers)
  let (st, issueComments) := listIssueComments env st st.issue.created_at
  let lastComment := issueComments.getLast?
  if !hasMaintainerAssignee then
    let sentAssigneeReminderBefore := issueComments.any (fun c =>
      match c.body with
      | some b => hasSub b tagAssignMaintainer
      | none => false)
    if !sentAssigneeReminderBefore then
      let maintainersToMention := ["BenWilson2", "dbczumar", "harupy", "WeichenXu123"]
      let mentions := createMentions maintainersToMention
      .inl (createComment opts st
        (tagAssignMaintainer ++ "\n" ++ mentions ++
          " Please assign a maintainer and start triaging this issue."))
    else .inl st
  else
  match lastComment with
  | none =>
    let mentions := createMentions
      ((st.issue.assignees.filter (isMaintainer maintainers)).map (fun u => u.login))
    .inl (createComment opts st
      (tagTriageIssue ++ "\n" ++ mentions ++ " Please triage this issue."))
  | some lastComment =>
    if st.issue.labels.any (fun l => l.name == "has-closing-pr") then .inl st
    else
    let botPostedLastComment := isBot lastComment.user
    let lastCommentCreatedAt := lastComment.created_at.getD (getNow now)
    if !(isOlderThanDaysAgo now lastCommentCreatedAt opts.daysBeforeReplyReminder) then
      .inl st
    else
    if !botPostedLastComment then
      let maintainerPostedLastComment :=
        match lastComment.user with
        | some u => isMaintainer maintainers u
        | none => false
      if maintainerPostedLastComment then
        let mention :=
          match st.issue.user with
          | some u => "@" ++ u.login
          | none => ""
        .inl (createComment opts st
          (tagReminderToIssueAuthor ++ "\n" ++ mention ++
            " Any updates here? If you're working on a PR, please link it to this issue."))
      else
        let mentions := createMentions
          ((st.issue.assignees.filter (isMaintainer maintainers)).map (fun u => u.login))
        .inl (createComment opts st
          (tagReminderToMaintainers ++ "\n" ++ mentions ++ " Please reply to comments."))
    else
    let hasMaintainerComment := issueComments.any (fun c =>
      match c.user with
      | some u => isMaintainer maintainers u
      | none => false)
    if !hasMaintainerComment then .inl st
    else
    if botPostedLastComment &&
        (match lastComment.body with
         | some b => hasSub b tagReminderToMaintainers
         | none => false) then
      .inl st
    else
    match st.issue.milestone with
    | some _ => .inl st
    | none => .inr st

/-- Modelled from the spec: the `ExemptDraftPullRequest` policy (its
class source is not present): only when the draft exemption is enabled
and the item is a pull request is the pull-request detail fetched (one
operation, at most once); missing data is treated as not exempt. -/
def shouldExemptDraftPullRequest (opts : IIssuesProcessorOptions)
    (env : Env) (st : PState) : PState × Bool :=
  if opts.exemptDraftPr && st.issue.isPullRequest then
    let (st, pr) := getPullRequest env st
    match pr with
    | some pr => (st, pr.draft)
    | none => (st, false)
  else (st, false)

/-- The only-labels gate of `processIssue` blocks when the resolved
only-labels list is non-empty and the issue does not carry every listed
label. -/
def onlyLabelsGateBlocks (opts : IIssuesProcessorOptions) (issue : Issue) : Bool :=
  let onlyLabels := wordsToList (getOnlyLabels opts issue)
  0 < onlyLabels.length && !(onlyLabels.all (fun label => isLabeled issue label))

/-- The start-date gate of `processIssue` blocks when a start date is
configured and the issue was not created after it. -/
def startDateGateBlocks (opts : IIssuesProcessorOptions) (issue : Issue) : Bool :=
  match opts.startDate with
  | some startDate => !(isDateMoreRecentThan issue.created_at startDate)
  | none => false

/-- The exempt-labels gate of `processIssue` fires when the issue
carries any label of the resolved exempt list. -/
def hasExemptLabel (opts : IIssuesProcessorOptions) (issue : Issue) : Bool :=
  (wordsToList
    (if issue.isPullRequest then opts.exemptPrLabels else opts.exemptIssueLabels)).any
    (fun label => isLabeled issue label)

/-- The any-of-labels gate of `processIssue` blocks when the resolved
any-of list is non-empty and the issue carries none of the listed
labels. -/
def anyOfLabelsGateBlocks (opts : IIssuesProcessorOptions) (issue : Issue) : Bool :=
  let anyOfLabels := wordsToList (getAnyOfLabels opts issue)
  0 < anyOfLabels.length && !(anyOfLabels.any (fun label => isLabeled issue label))

/-- The part of `processIssue` between the maintainer-nudge branch and
the final stale-processing step: the exempt-labels, any-of-labels,
milestone, assignee and draft-PR gates followed by the staleness
determination and the mark-stale step.  `.inl st` means an early return
fired; `.inr st` means control reached the final `if issue.isStale`. -/
def stalenessPipeline (opts : IIssuesProcessorOptions) (env : Env) (now : Nat)
    (issue : Issue) (staleMessage staleLabel : String) (skipMessage : Bool)
    (daysBeforeStale : Int) (shouldMarkAsStale : Bool)
    (st : PState) : PState ⊕ PState :=
  if hasExemptLabel opts issue then
    let st := if st.issue.isStale then removeStaleLabel opts st staleLabel else st
    .inl st
  else
  if anyOfLabelsGateBlocks opts issue then .inl st
  else
  if shouldExemptMilestones opts st.issue then .inl st
  else
  if shouldExemptAssignees opts st.issue then .inl st
  else
  let (st, exemptDraft) := shouldExemptDraftPullRequest opts env st
  if exemptDraft then .inl st
  else
  let st :=
    if !st.issue.isStale then
      let ignore := shouldIgnoreUpdates opts st.issue
      let shouldBeStale :=
        if ignore then !(updatedSince now st.issue.created_at daysBeforeStale)
        else !(updatedSince now st.issue.updated_at daysBeforeStale)
      if shouldBeStale && shouldMarkAsStale then
        let st := markStale opts now st staleMessage staleLabel skipMessage
        { st with issue := { st.issue with isStale := true, markedStaleThisRun := true } }
      else st
    else st
  .inr st

/-- The body of `IssuesProcessor.processIssue` up to (and including) the
staleness determination: the ordered gate chain, the maintainer-nudge
branch, the exemption gates, and the mark-stale step.  `.inl st` means
an early return fired; `.inr st` means control reached the final
`if issue.isStale` stale-processing step with state `st`. -/
def processIssueCore (opts : IIssuesProcessorOptions)
    (maintainers : List String) (env : Env) (now : Nat)
    (issue : Issue) : PState ⊕ PState :=
  let st : PState := { issue := issue }
  let staleMessage :=
    if issue.isPullRequest then opts.stalePrMessage else opts.staleIssueMessage
  let staleLabel :=
    if issue.isPullRequest then opts.stalePrLabel else opts.staleIssueLabel
  let closeLabel :=
    if issue.isPullRequest then opts.closePrLabel else opts.closeIssueLabel
  let skipMessage := staleMessage == ""
  let daysBeforeStale :=
    if issue.isPullRequest then getDaysBeforePrStale opts
    else getDaysBeforeIssueStale opts
  if issue.state == "closed" then .inl st
  else if issue.locked then .inl st
  else
  if onlyLabelsGateBlocks opts issue then .inl st
  else
  let shouldMarkAsStale := shouldMarkWhenStale daysBeforeStale
  let st := removeCloseLabel opts st closeLabel
  if startDateGateBlocks opts issue then .inl st
  else
  let nudge :=
    if opts.mlflow && !issue.isStale then mlflowBranch opts maintainers env now st
    else .inr st
  match nudge with
  | .inl st => .inl st
  | .inr st =>
    stalenessPipeline opts env now issue staleMessage staleLabel skipMessage
      daysBeforeStale shouldMarkAsStale st

/-- `IssuesProcessor.processIssue`: the gate chain followed, when the
issue is (now) stale, by the stale processing stage. -/
def processIssue (opts : IIssuesProcessorOptions) (maintainers : List String)
    (env : Env) (now : Nat) (issue : Issue)
    (labelsToAddWhenUnstale : List String)
    (labelsToRemoveWhenUnstale : List String) : Except Unit PState :=
  let staleMessage :=
    if issue.isPullRequest then opts.stalePrMessage else opts.staleIssueMessage
  let closeMessage :=
    if issue.isPullRequest then opts.closePrMessage else opts.closeIssueMessage
  let staleLabel :=
    if issue.isPullRequest then opts.stalePrLabel else opts.staleIssueLabel
  let closeLabel :=
    if issue.isPullRequest then opts.closePrLabel else opts.closeIssueLabel
  match processIssueCore opts maintainers env now issue with
  | .inl st => .ok st
  | .inr st =>
    if st.issue.isStale then
      processStaleIssue opts env now st staleLabel staleMessage
        labelsToAddWhenUnstale labelsToRemoveWhenUnstale closeMessage closeLabel
    else .ok st

/-- Modelled from the spec: the run-wide `StaleOperations` budget (its
class source is not present): a counter of consumed operations; the
remaining budget is the configured operations-per-run minus the consumed
count, and work remains while the consumed count is below the
configuration. -/
structure StaleOperations where
  consumed : Nat := 0
deriving DecidableEq

/-- Modelled from the spec: `consumeOperation` accounts one platform
interaction. -/
def StaleOperations.consumeOperation (o : StaleOperations) : StaleOperations :=
  { consumed := o.consumed + 1 }

/-- Modelled from the spec: `consumeOperations` accounts several
platform interactions at once. -/
def StaleOperations.consumeOperations (o : StaleOperations)
    (quantity : Nat) : StaleOperations :=
  { consumed := o.consumed + quantity }

/-- Modelled from the spec: `hasRemainingOperations`. -/
def StaleOperations.hasRemainingOperations (opts : IIssuesProcessorOptions)
    (o : StaleOperations) : Bool :=
  decide (o.consumed < opts.operationsPerRun)

/-- Modelled from the spec: `getRemainingOperationsCount` (an integer:
consumed minus configured can overshoot). -/
def StaleOperations.getRemainingOperationsCount
    (opts : IIssuesProcessorOptions) (o : StaleOperations) : Int :=
  (opts.operationsPerRun : Int) - (o.consumed : Int)

/-- The within-page loop of `IssuesProcessor.processIssues`: before each
issue the remaining-operations check is made and the loop breaks as soon
as it fails; otherwise the issue is processed (`engine` abstracts the
`processIssue` call, returning the operations that issue consumed, or a
propagating error).  Alongside the final budget it returns, for each
issue that was actually started, the consumed count at its start. -/
def processPage (opts : IIssuesProcessorOptions)
    (engine : Issue → Except Unit Nat) (issues : List Issue)
    (o : StaleOperations) : Except Unit (StaleOperations × List Nat) :=
  match issues with
  | [] => .ok (o, [])
  | issue :: rest =>
    if !o.hasRemainingOperations opts then .ok (o, [])
    else
      match engine issue with
      | .error e => .error e
      | .ok k =>
        match processPage opts engine rest (o.consumeOperations k) with
        | .error e => .error e
        | .ok (o', starts) => .ok (o', o.consumed :: starts)

/-- `IssuesProcessor.processIssues`, the batch driver: fetch a page (one
operation, even for the final empty page), stop on an empty page
reporting the remaining budget, otherwise run the within-page loop and,
when budget remains, recurse to the next page; when none remains, stop
reporting zero.  `pages` is the finite sequence of pages the platform
returns (exhaustion afterwards).  Returns the final budget, the recorded
issue starts, and the reported remaining count. -/
def processIssues (opts : IIssuesProcessorOptions)
    (engine : Issue → Except Unit Nat) (pages : List (List Issue))
    (o : StaleOperations) : Except Unit (StaleOperations × List Nat × Int) :=
  match pages with
  | [] =>
    let o := o.consumeOperation
    .ok (o, [], o.getRemainingOperationsCount opts)
  | issues :: rest =>
    let o := o.consumeOperation
    if issues.isEmpty then .ok (o, [], o.getRemainingOperationsCount opts)
    else
      match processPage opts engine issues o with
      | .error e => .error e
      | .ok (o, starts) =>
        if !o.hasRemainingOperations opts then .ok (o, starts, 0)
        else
          match processIssues opts engine rest o with
          | .error e => .error e
          | .ok (o', starts', r) => .ok (o', starts ++ starts', r)

/-- The engine instantiation used by the batch driver: run `processIssue`
and account the operations it consumed. -/
def engineOf (opts : IIssuesProcessorOptions) (maintainers : List String)
    (envOf : Issue → Env) (now : Nat) : Issue → Except Unit Nat :=
  fun issue =>
    match processIssue opts maintainers (envOf issue) now issue
        (wordsToList opts.labelsToAddWhenUnstale)
        (wordsToList opts.labelsToRemoveWhenUnstale) with
    | .error e => .error e
    | .ok st => .ok st.ops

/-- A baseline configuration used by concrete witnesses: thirty days
before stale, seven before close, nudge thresholds of seven and
fourteen days, all optional behavior off. -/
def defOpts : IIssuesProcessorOptions := {
  staleIssueMessage := "This issue is stale"
  stalePrMessage := "This PR is stale"
  closeIssueMessage := ""
  closePrMessage := ""
  staleIssueLabel := "Stale"
  stalePrLabel := "Stale"
  closeIssueLabel := ""
  closePrLabel := ""
  daysBeforeStale := 30
  daysBeforeIssueStale := none
  daysBeforePrStale := none
  daysBeforeClose := 7
  daysBeforeIssueClose := none
  daysBeforePrClose := none
  daysBeforeTriageReminders := 7
  daysBeforeReplyReminder := 14
  onlyLabels := ""
  onlyIssueLabels := ""
  onlyPrLabels := ""
  anyOfLabels := ""
  anyOfIssueLabels := ""
  anyOfPrLabels := ""
  exemptIssueLabels := ""
  exemptPrLabels := ""
  removeStaleWhenUpdated := false
  removeIssueStaleWhenUpdated := none
  removePrStaleWhenUpdated := none
  debugOnly := false
  deleteBranch := false
  startDate := none
  mlflow := false
  labelsToAddWhenUnstale := ""
  labelsToRemoveWhenUnstale := ""
  operationsPerRun := 100
  exemptMilestoneTitles := []
  exemptAllMilestones := false
  exemptAssigneeLogins := []
  exemptAllAssignees := false
  exemptDraftPr := false
  ignoreUpdates := false
  ignoreIssueUpdates := none
  ignorePrUpdates := none
}

/-- A baseline open, unlabeled, non-stale issue used by concrete
witnesses. -/
def defIssue : Issue := {
  number := 1
  title := "Issue"
  created_at := 0
  updated_at := 0
  labels := []
  isPullRequest := false
  state := "open"
  locked := false
  milestone := none
  assignees := []
  user := none
  isStale := false
}

/-- A platform environment with no comments, no events, and a failing
pull-request fetch. -/
def emptyEnv : Env := {
  comments := fun _ => .ok []
  events := .ok []
  pullRequest := .error ()
}

@[simp]
theorem consumeIssueOperation_issue (st : PState) :
    (consumeIssueOperation st).issue = st.issue := rfl

@[simp]
theorem emit_issue (st : PState) (a : Action) : (emit st a).issue = st.issue := rfl

@[simp]
theorem removeLabel_issue (opts : IIssuesProcessorOptions) (st : PState)
    (label : String) : (removeLabel opts st label).issue = st.issue := by
  unfold removeLabel
  cases h : opts.debugOnly <;> simp [h]

@[simp]
theorem removeCloseLabel_issue (opts : IIssuesProcessorOptions) (st : PState)
    (closeLabel : String) : (removeCloseLabel opts st closeLabel).issue = st.issue := by
  unfold removeCloseLabel
  split
  · rfl
  · split <;> simp

@[simp]
theorem getPullRequest_issue (env : Env) (st : PState) :
    (getPullRequest env st).1.issue = st.issue := by
  unfold getPullRequest
  cases h : env.pullRequest <;> simp [h]

@[simp]
theorem shouldExemptDraftPullRequest_issue (opts : IIssuesProcessorOptions)
    (env : Env) (st : PState) :
    (shouldExemptDraftPullRequest opts env st).1.issue = st.issue := by
  unfold shouldExemptDraftPullRequest
  split
  · rcases h : getPullRequest env st with ⟨st', pr⟩
    have := getPullRequest_issue env st
    rw [h] at this
    cases pr <;> simp_all
  · rfl

theorem shouldExemptDraftPullRequest_not_pr (opts : IIssuesProcessorOptions)
    (env : Env) (st : PState) (h : st.issue.isPullRequest = false) :
    shouldExemptDraftPullRequest opts env st = (st, false) := by
  unfold shouldExemptDraftPullRequest
  simp [h]

theorem updatedSince_false_iff (now ts : Nat) (d : Int) :
    updatedSince now ts d = false ↔ msPerDay * d < (now : Int) - (ts : Int) := by
  simp only [updatedSince, decide_eq_false_iff_not, Int.not_le]

theorem updatedSince_true_iff (now ts : Nat) (d : Int) :
    updatedSince now ts d = true ↔ (now : Int) - (ts : Int) ≤ msPerDay * d := by
  simp only [updatedSince, decide_eq_true_eq]

/-- The staleness determination is strict at the boundary: with all
gates passing, a non-stale issue is marked stale exactly when now minus
the reference timestamp (creation date when updates are ignored, last
update otherwise) strictly exceeds the resolved days-before-stale in
milliseconds. -/
theorem core_marks_stale_iff_strict
    (opts : IIssuesProcessorOptions) (maintainers : List String) (env : Env)
    (now : Nat) (issue : Issue)
    (hstate : (issue.state == "closed") = false)
    (hlock : issue.locked = false)
    (honly : onlyLabelsGateBlocks opts issue = false)
    (hstart : startDateGateBlocks opts issue = false)
    (hm : opts.mlflow = false)
    (hex : hasExemptLabel opts issue = false)
    (hany : anyOfLabelsGateBlocks opts issue = false)
    (hmil : shouldExemptMilestones opts issue = false)
    (hass : shouldExemptAssignees opts issue = false)
    (hpr : issue.isPullRequest = false)
    (hstale : issue.isStale = false)
    (hrun : issue.markedStaleThisRun = false)
    (hmark : shouldMarkWhenStale (getDaysBeforeIssueStale opts) = true) :
    ∃ st, processIssueCore opts maintainers env now issue = .inr st ∧
      st.issue.markedStaleThisRun =
        decide (msPerDay * getDaysBeforeIssueStale opts <
          (now : Int) - ((if shouldIgnoreUpdates opts issue then issue.created_at
            else issue.updated_at : Nat) : Int)) := by
  unfold processIssueCore stalenessPipeline
  simp only [hstate, hlock, honly, hstart, hm, hex, hany, hpr,
    Bool.false_and, Bool.false_eq_true, if_false, if_neg, ite_false,
    removeCloseLabel_issue, hmil, hass, Bool.false_eq_true]
  rw [shouldExemptDraftPullRequest_not_pr opts env _ (by simp [hpr])]
  simp only [removeCloseLabel_issue, hstale, hmark, Bool.not_false, if_true,
    Bool.and_true, Bool.false_eq_true, if_false, ite_true, ite_false,
    shouldIgnoreUpdates, hpr]
  cases hign : opts.ignoreIssueUpdates.getD opts.ignoreUpdates
  · cases hb : updatedSince now issue.updated_at (getDaysBeforeIssueStale opts) <;>
      simp only [Bool.false_eq_true, Bool.true_eq_false, if_false, if_true,
        ite_true, ite_false, Bool.not_true, Bool.not_false]
    · refine ⟨_, rfl, ?_⟩
      simp only [removeCloseLabel_issue, hrun]
      exact (decide_eq_true_eq.mpr ((updatedSince_false_iff _ _ _).mp hb)).symm
    · refine ⟨_, rfl, ?_⟩
      simp only [removeCloseLabel_issue, hrun]
      symm
      rw [decide_eq_false_iff_not]
      exact not_lt.mpr ((updatedSince_true_iff _ _ _).mp hb)
  · cases hb : updatedSince now issue.created_at (getDaysBeforeIssueStale opts) <;>
      simp only [Bool.false_eq_true, Bool.true_eq_false, if_false, if_true,
        ite_true, ite_false, Bool.not_true, Bool.not_false]
    · refine ⟨_, rfl, ?_⟩
      simp only [removeCloseLabel_issue, hrun]
      exact (decide_eq_true_eq.mpr ((updatedSince_false_iff _ _ _).mp hb)).symm
    · refine ⟨_, rfl, ?_⟩
      simp only [removeCloseLabel_issue, hrun]
      symm
      rw [decide_eq_false_iff_not]
      exact not_lt.mpr ((updatedSince_true_iff _ _ _).mp hb)

/-- C1 counterexample: an issue idle for exactly `daysBeforeStale` days
(thirty days at millisecond precision) is NOT marked stale — the
boundary is exclusive, refuting the claimed inclusive (`at least`)
boundary. -/
theorem stale_boundary_inclusive_cex :
    ((2592000000 : Int) - (defIssue.updated_at : Int) =
      msPerDay * defOpts.daysBeforeStale) ∧
    processIssue defOpts [] emptyEnv 2592000000 defIssue [] [] =
      .ok { issue := defIssue } := by
  constructor
  · decide
  · rfl

/-- C1 witness: one millisecond past the thirty-day boundary the issue
is marked stale. -/
theorem core_marks_stale_iff_strict_witness :
    ∃ st, processIssueCore defOpts [] emptyEnv 2592000001 defIssue = .inr st ∧
      st.issue.markedStaleThisRun = true :=
  core_marks_stale_iff_strict defOpts [] emptyEnv 2592000001 defIssue
    (by decide) (by decide) (by decide) (by decide) (by decide) (by decide)
    (by decide) (by decide) (by decide) (by decide) (by decide) (by decide)
    (by decide)

theorem getLabelCreationDate_ok (env : Env) (st : PState) (label : String)
    (evs : List IIssueEvent) (hev : env.events = .ok evs) :
    getLabelCreationDate env st label =
      .ok (consumeIssueOperation st,
        (evs.reverse.find? (fun ev =>
          ev.event == "labeled" && cleanLabel ev.labelName == cleanLabel label)).map
            (fun ev => ev.created_at)) := by
  unfold getLabelCreationDate
  rw [hev]

theorem processStaleIssue_isOk (opts : IIssuesProcessorOptions) (env : Env)
    (now : Nat) (st : PState) (staleLabel staleMessage : String)
    (la lr : List String) (cm cl : String)
    (evs : List IIssueEvent) (hev : env.events = .ok evs) :
    ∃ st', processStaleIssue opts env now st staleLabel staleMessage la lr cm cl =
      .ok st' := by
  unfold processStaleIssue
  rw [getLabelCreationDate_ok env st staleLabel evs hev]
  simp only []
  repeat' split
  all_goals exact ⟨_, rfl⟩

/-- C2 (amended): a platform error anywhere except the label-events
listing never escapes `processIssue`: whenever the event listing
succeeds, `processIssue` returns normally, for every configuration,
issue, clock, and any behavior (including errors) of the comment-listing
and pull-request calls. -/
theorem processIssue_ok_of_events_ok (opts : IIssuesProcessorOptions)
    (maintainers : List String) (env : Env) (now : Nat) (issue : Issue)
    (la lr : List String) (evs : List IIssueEvent)
    (hev : env.events = .ok evs) :
    ∃ st, processIssue opts maintainers env now issue la lr = .ok st := by
  unfold processIssue
  cases hcore : processIssueCore opts maintainers env now issue with
  | inl st => exact ⟨st, rfl⟩
  | inr st =>
    cases hst : st.issue.isStale with
    | false => exact ⟨st, by simp [hst]⟩
    | true =>
      obtain ⟨st', hst'⟩ := processStaleIssue_isOk opts env now st
        (if issue.isPullRequest then opts.stalePrLabel else opts.staleIssueLabel)
        (if issue.isPullRequest then opts.stalePrMessage else opts.staleIssueMessage)
        la lr
        (if issue.isPullRequest then opts.closePrMessage else opts.closeIssueMessage)
        (if issue.isPullRequest then opts.closePrLabel else opts.closeIssueLabel)
        evs hev
      exact ⟨st', by simp [hst, hst']⟩

/-- C2 counterexample: the label-events listing inside
`getLabelCreationDate` is not individually guarded — a platform error
there propagates out of `processIssue` for a stale issue, refuting the
claim that every per-issue platform call site is guarded. -/
theorem unguarded_label_events_cex :
    processIssue defOpts [] { emptyEnv with events := .error () } 2592000000
      { defIssue with labels := [⟨"Stale"⟩], isStale := true } [] [] =
      .error () := by
  rfl

/-- C2 witness: with a successful (empty) event listing, `processIssue`
returns normally on the same stale issue. -/
theorem processIssue_ok_of_events_ok_witness :
    ∃ st, processIssue defOpts [] emptyEnv 2592000000
      { defIssue with labels := [⟨"Stale"⟩], isStale := true } [] [] = .ok st :=
  processIssue_ok_of_events_ok defOpts [] emptyEnv 2592000000
    { defIssue with labels := [⟨"Stale"⟩], isStale := true } [] [] [] rfl

theorem processPage_starts_lt_budget (opts : IIssuesProcessorOptions)
    (engine : Issue → Except Unit Nat) (issues : List Issue)
    (o o' : StaleOperations) (starts : List Nat)
    (h : processPage opts engine issues o = .ok (o', starts)) :
    ∀ c ∈ starts, c < opts.operationsPerRun := by
  induction issues generalizing o starts with
  | nil =>
    unfold processPage at h
    cases h
    simp
  | cons issue rest ih =>
    unfold processPage at h
    split at h
    · cases h
      simp
    · rename_i hrem
      cases hengine : engine issue with
      | error e => rw [hengine] at h; simp at h
      | ok k =>
        rw [hengine] at h
        simp only [] at h
        cases hrec : processPage opts engine rest (o.consumeOperations k) with
        | error e => rw [hrec] at h; simp at h
        | ok p =>
          rw [hrec] at h
          rcases p with ⟨o1, starts1⟩
          simp only [] at h
          cases h
          intro c hc
          rcases List.mem_cons.mp hc with hc | hc
          · subst hc
            have := of_decide_eq_true (Bool.not_not_eq.mp (by simpa using hrem))
            simpa [StaleOperations.hasRemainingOperations] using this
          · exact ih _ _ hrec c hc

/-- C3 (amended): the batch driver checks the remaining-operations
budget before every issue, breaking out of the page and never recursing
to the next page once the budget is exhausted: every issue it actually
starts is started with the consumed count strictly below the configured
operations-per-run.  (The remaining count itself can overshoot below
zero mid-issue, because a single issue consumes several operations after
the check; see the counterexample.) -/
theorem driver_never_starts_issue_without_budget
    (opts : IIssuesProcessorOptions) (engine : Issue → Except Unit Nat)
    (pages : List (List Issue)) (o o' : StaleOperations)
    (starts : List Nat) (r : Int)
    (h : processIssues opts engine pages o = .ok (o', starts, r)) :
    ∀ c ∈ starts, c < opts.operationsPerRun := by
  induction pages generalizing o starts r with
  | nil =>
    unfold processIssues at h
    cases h
    simp
  | cons issues rest ih =>
    unfold processIssues at h
    split at h
    · cases h
      simp
    · simp only [] at h
      cases hpage : processPage opts engine issues o.consumeOperation with
      | error e => rw [hpage] at h; simp at h
      | ok p =>
        rw [hpage] at h
        rcases p with ⟨o1, starts1⟩
        simp only [] at h
        split at h
        · cases h
          exact processPage_starts_lt_budget opts engine issues _ _ _ hpage
        · cases hrest : processIssues opts engine rest o1 with
          | error e => rw [hrest] at h; simp at h
          | ok q =>
            rw [hrest] at h
            rcases q with ⟨o2, starts2, r2⟩
            simp only [] at h
            cases h
            intro c hc
            rcases List.mem_append.mp hc with hc | hc
            · exact processPage_starts_lt_budget opts engine issues _ _ _ hpage c hc
            · exact ih _ _ _ hrest c hc

/-- C3 counterexample: the remaining-operations count does go negative.
With a budget of two, the driver rightly starts the single stale issue
(one operation was consumed fetching the page), but that issue consumes
two further operations (event listing and comment listing), leaving a
remaining count of minus one. -/
theorem budget_goes_negative_cex :
    processIssues { defOpts with operationsPerRun := 2, daysBeforeClose := -1 }
      (engineOf { defOpts with operationsPerRun := 2, daysBeforeClose := -1 } []
        (fun _ => emptyEnv) 2592000000)
      [[{ defIssue with labels := [⟨"Stale"⟩], isStale := true }]] {} =
      .ok ({ consumed := 3 }, [1], 0) ∧
    StaleOperations.getRemainingOperationsCount
      { defOpts with operationsPerRun := 2, daysBeforeClose := -1 }
      { consumed := 3 } = -1 := by
  exact ⟨rfl, rfl⟩

/-- C3 witness: in a concrete one-page run, the recorded issue start
happened strictly below the configured budget. -/
theorem driver_budget_check_witness : (1 : Nat) < defOpts.operationsPerRun :=
  driver_never_starts_issue_without_budget defOpts
    (engineOf defOpts [] (fun _ => emptyEnv) 2592000001) [[defIssue]] {}
    { consumed := 6 } [1] 94 rfl 1 (by decide)

@[simp]
theorem consumeIssueOperation_effects (st : PState) :
    (consumeIssueOperation st).effects = st.effects := rfl

@[simp]
theorem listIssueComments_fst_issue (env : Env) (st : PState) (d : Nat) :
    (listIssueComments env st d).1.issue = st.issue := by
  unfold listIssueComments
  cases h : env.comments d <;> simp [h]

@[simp]
theorem listIssueComments_fst_effects (env : Env) (st : PState) (d : Nat) :
    (listIssueComments env st d).1.effects = st.effects := by
  unfold listIssueComments
  cases h : env.comments d <;> simp [h]

@[simp]
theorem hasCommentsSince_fst_issue (env : Env) (st : PState) (d : Nat)
    (m : String) : (hasCommentsSince env st d m).1.issue = st.issue := by
  unfold hasCommentsSince
  simp

@[simp]
theorem hasCommentsSince_fst_effects (env : Env) (st : PState) (d : Nat)
    (m : String) : (hasCommentsSince env st d m).1.effects = st.effects := by
  unfold hasCommentsSince
  simp

theorem markStale_issue (opts : IIssuesProcessorOptions) (now : Nat)
    (st : PState) (msg label : String) (skip : Bool) :
    (markStale opts now st msg label skip).issue =
      { st.issue with updated_at := truncSec now } := by
  unfold markStale
  repeat' split
  all_goals rfl

/-- C4 (amended): an issue marked stale by this run has its `updated_at`
rewritten to the current time and, whenever the resolved
`daysBeforeClose` is negative (closing disabled) or at least one day,
the same run's stale processing issues no further platform call at all —
in particular it does not close the issue.  (With `daysBeforeClose = 0`
the code can close a just-marked issue, because the second-resolution
`updated_at` makes the sub-second idle time count as "no update"; see
the counterexample.) -/
theorem marked_this_run_not_closed (opts : IIssuesProcessorOptions)
    (env : Env) (now : Nat) (st0 : PState) (msg label : String) (skip : Bool)
    (la lr : List String) (cm cl : String) (st st' : PState)
    (hmark : st =
      { markStale opts now st0 msg label skip with
        issue := { (markStale opts now st0 msg label skip).issue with
          isStale := true, markedStaleThisRun := true } })
    (hd : (if st.issue.isPullRequest then getDaysBeforePrClose opts
           else getDaysBeforeIssueClose opts) < 0 ∨
          1 ≤ (if st.issue.isPullRequest then getDaysBeforePrClose opts
           else getDaysBeforeIssueClose opts))
    (h : processStaleIssue opts env now st label msg la lr cm cl = .ok st') :
    st.issue.updated_at = truncSec now ∧ st'.effects = st.effects := by
  have hupd : st.issue.updated_at = truncSec now := by
    rw [hmark]
    simp [markStale_issue]
  have hms : st.issue.markedStaleThisRun = true := by rw [hmark]
  refine ⟨hupd, ?_⟩
  unfold processStaleIssue at h
  cases hev : env.events with
  | error e =>
    rw [getLabelCreationDate, hev] at h
    simp at h
  | ok evs =>
    rw [getLabelCreationDate_ok env st label evs hev] at h
    simp only [] at h
    rcases hcs : hasCommentsSince env (consumeIssueOperation st)
        ((Option.map (fun ev => ev.created_at)
          (List.find? (fun ev =>
            ev.event == "labeled" && cleanLabel ev.labelName == cleanLabel label)
            evs.reverse)).getD (consumeIssueOperation st).issue.updated_at)
        msg with ⟨st2, hasC⟩
    rw [hcs] at h
    simp only [] at h
    have hst2_issue : st2.issue = st.issue := by
      have := hasCommentsSince_fst_issue env (consumeIssueOperation st)
        ((Option.map (fun ev => ev.created_at)
          (List.find? (fun ev =>
            ev.event == "labeled" && cleanLabel ev.labelName == cleanLabel label)
            evs.reverse)).getD (consumeIssueOperation st).issue.updated_at) msg
      rw [hcs] at this
      simpa using this
    have hst2_effects : st2.effects = st.effects := by
      have := hasCommentsSince_fst_effects env (consumeIssueOperation st)
        ((Option.map (fun ev => ev.created_at)
          (List.find? (fun ev =>
            ev.event == "labeled" && cleanLabel ev.labelName == cleanLabel label)
            evs.reverse)).getD (consumeIssueOperation st).issue.updated_at) msg
      rw [hcs] at this
      simpa using this
    rw [hst2_issue, hms] at h
    simp only [Bool.not_true, Bool.and_false, Bool.false_eq_true, if_false,
      ite_false] at h
    rcases hd with hd | hd
    · rw [if_pos hd] at h
      cases h
      exact hst2_effects
    · have hdneg : ¬((if st.issue.isPullRequest then getDaysBeforePrClose opts
          else getDaysBeforeIssueClose opts) < 0) := by omega
      rw [if_neg hdneg] at h
      have hupdSince : updatedSince now st.issue.updated_at
          (if st.issue.isPullRequest then getDaysBeforePrClose opts
           else getDaysBeforeIssueClose opts) = true := by
        rw [updatedSince_true_iff, hupd]
        have h1 : (truncSec now : Int) ≤ now := by
          unfold truncSec
          exact_mod_cast Nat.div_mul_le_self now 1000
        have h2 : (now : Int) - truncSec now < 1000 := by
          unfold truncSec
          have : now - now / 1000 * 1000 < 1000 := by
            have := Nat.mod_lt now (show 0 < 1000 by decide)
            omega
          omega
        unfold msPerDay
        omega
      rw [hupdSince] at h
      simp only [Bool.not_true, Bool.and_false, Bool.false_eq_true, if_false,
        ite_false] at h
      cases h
      exact hst2_effects

/-- C4 counterexample: with `daysBeforeClose = 0` and a clock that is
not second-aligned, an issue marked stale by this very run is closed in
the same invocation — `updated_at` was rewritten to the truncated
current time, so the sub-second idle span already fails the
`hasUpdate` test, refuting "for every configuration value of
daysBeforeClose". -/
theorem same_run_close_cex :
    ∃ st, processIssue { defOpts with daysBeforeClose := 0 } [] emptyEnv
        2592000500 defIssue [] [] = .ok st ∧
      st.issue.markedStaleThisRun = true ∧ Action.closeIssue ∈ st.effects := by
  refine ⟨_, rfl, by decide, by decide⟩

/-- The state of a concrete issue just after this run marked it stale
(stale comment posted, stale label added, `updated_at` rewritten). -/
def c4MarkedState : PState := {
  issue := { defIssue with
    updated_at := 2592000000
    isStale := true
    markedStaleThisRun := true }
  effects := [Action.createComment "m", Action.addLabels ["Stale"]]
  ops := 2
}

/-- The same state after the run's stale processing (two read
operations, no further platform call). -/
def c4FinalState : PState := { c4MarkedState with ops := 4 }

/-- C4 witness: with the default seven-day close delay, a concrete issue
marked stale by this run keeps its effects unchanged through the same
run's stale processing (no close). -/
theorem marked_this_run_not_closed_witness :
    c4MarkedState.issue.updated_at = truncSec 2592000500 ∧
    c4FinalState.effects = c4MarkedState.effects :=
  marked_this_run_not_closed defOpts emptyEnv 2592000500 { issue := defIssue }
    "m" "Stale" false [] [] "" "" c4MarkedState c4FinalState rfl
    (Or.inr (by decide)) rfl

/-- C9: a closed or locked issue is skipped outright — `processIssue`
returns with no platform call issued and zero operations consumed on
both the run-wide and the per-issue counter. -/
theorem closed_or_locked_no_action (opts : IIssuesProcessorOptions)
    (maintainers : List String) (env : Env) (now : Nat) (issue : Issue)
    (la lr : List String)
    (h : issue.state = "closed" ∨ issue.locked = true) :
    processIssue opts maintainers env now issue la lr =
      .ok { issue := issue, effects := [], ops := 0 } := by
  unfold processIssue processIssueCore
  rcases h with h | h
  · simp [h]
  · cases hs : issue.state == "closed" <;> simp [h, hs]

/-- C9 witness: a concrete closed issue yields no action and no consumed
operation. -/
theorem closed_or_locked_no_action_witness :
    processIssue defOpts [] emptyEnv 2592000001
      { defIssue with state := "closed" } [] [] =
      .ok { issue := { defIssue with state := "closed" }, effects := [], ops := 0 } :=
  closed_or_locked_no_action defOpts [] emptyEnv 2592000001
    { defIssue with state := "closed" } [] [] (Or.inl rfl)

theorem removeLabel_effects_nodebug (opts : IIssuesProcessorOptions)
    (st : PState) (label : String) (h : opts.debugOnly = false) :
    (removeLabel opts st label).effects = st.effects ++ [.removeLabel label] := by
  unfold removeLabel
  simp [h, emit]

theorem mlflowBranch_pr (opts : IIssuesProcessorOptions)
    (maintainers : List String) (env : Env) (now : Nat) (st : PState)
    (h : st.issue.isPullRequest = true) :
    mlflowBranch opts maintainers env now st = .inr st := by
  unfold mlflowBranch
  simp [h]

/-- C8: when the exempt-labels gate is reached (closed/locked,
only-labels and start-date gates passed; the nudge branch skipped or
fallen through) and the issue carries an applicable exempt label,
processing stops there: the run's only platform calls are the
close-label cleanup and — exactly when the issue was already stale — the
removal of the stale label, issued before stopping; in particular the
issue is never closed in that run. -/
theorem exempt_label_wins (opts : IIssuesProcessorOptions)
    (maintainers : List String) (env : Env) (now : Nat) (issue : Issue)
    (la lr : List String)
    (hstate : (issue.state == "closed") = false)
    (hlock : issue.locked = false)
    (honly : onlyLabelsGateBlocks opts issue = false)
    (hstart : startDateGateBlocks opts issue = false)
    (hnudge : opts.mlflow = false ∨ issue.isStale = true ∨
      issue.isPullRequest = true)
    (hex : hasExemptLabel opts issue = true)
    (hdebug : opts.debugOnly = false) :
    ∃ st, processIssue opts maintainers env now issue la lr = .ok st ∧
      st.effects =
        (removeCloseLabel opts { issue := issue }
          (if issue.isPullRequest then opts.closePrLabel else opts.closeIssueLabel)).effects ++
        (if issue.isStale then
          [Action.removeLabel
            (if issue.isPullRequest then opts.stalePrLabel else opts.staleIssueLabel)]
         else []) := by
  unfold processIssue processIssueCore stalenessPipeline
  have hnudge' : ∀ stC : PState, stC.issue = issue →
      (if (opts.mlflow && !issue.isStale) = true then
        mlflowBranch opts maintainers env now stC
       else .inr stC) = .inr stC := by
    intro stC hC
    rcases hnudge with h | h | h
    · simp [h]
    · simp [h]
    · split
      · exact mlflowBranch_pr opts maintainers env now stC (hC ▸ h)
      · rfl
  simp only [hstate, hlock, honly, hstart, Bool.false_eq_true, if_false,
    ite_false, ite_true, if_true]
  rw [hnudge' _ (by simp)]
  simp only [hex, Bool.false_eq_true, if_false, ite_false, ite_true, if_true,
    removeCloseLabel_issue]
  cases hstale : issue.isStale with
  | false =>
    simp only [Bool.false_eq_true, if_false, ite_false]
    exact ⟨_, rfl, by simp⟩
  | true =>
    simp only [if_true, ite_true]
    refine ⟨_, rfl, ?_⟩
    unfold removeStaleLabel
    rw [removeLabel_effects_nodebug opts _ _ hdebug]

/-- C8 witness: a concrete already-stale issue carrying an exempt label
has exactly its stale label removed and nothing else. -/
theorem exempt_label_wins_witness :
    ∃ st, processIssue { defOpts with exemptIssueLabels := "wip" } [] emptyEnv
        8640000000 { defIssue with labels := [⟨"Stale"⟩, ⟨"wip"⟩], isStale := true }
        [] [] = .ok st ∧
      st.effects = [Action.removeLabel "Stale"] :=
  exempt_label_wins { defOpts with exemptIssueLabels := "wip" } [] emptyEnv
    8640000000 { defIssue with labels := [⟨"Stale"⟩, ⟨"wip"⟩], isStale := true }
    [] [] (by decide) (by decide) (by decide) (by decide) (Or.inl rfl)
    (by decide) (by decide)

@[simp]
theorem createComment_issue (opts : IIssuesProcessorOptions) (st : PState)
    (body : String) : (createComment opts st body).issue = st.issue := by
  unfold createComment
  split <;> simp

theorem createComment_effects_sub (opts : IIssuesProcessorOptions)
    (st : PState) (body : String) :
    ∀ a ∈ (createComment opts st body).effects,
      a ∈ st.effects ∨ a = .createComment body := by
  unfold createComment
  split
  · exact fun a ha => Or.inl ha
  · intro a ha
    simp only [emit, consumeIssueOperation] at ha
    rcases List.mem_append.mp ha with h | h
    · exact Or.inl h
    · exact Or.inr (by simpa using h)

theorem removeCloseLabel_effects_sub (opts : IIssuesProcessorOptions)
    (st : PState) (label : String) :
    ∀ a ∈ (removeCloseLabel opts st label).effects,
      a ∈ st.effects ∨ a = .removeLabel label := by
  unfold removeCloseLabel removeLabel
  split
  · exact fun a ha => Or.inl ha
  · split
    · split
      · exact fun a ha => Or.inl (by simpa using ha)
      · intro a ha
        simp only [emit, consumeIssueOperation] at ha
        rcases List.mem_append.mp ha with h | h
        · exact Or.inl h
        · exact Or.inr (by simpa using h)
    · exact fun a ha => Or.inl ha

/-- When the nudge branch is entered on a non-PR issue that carries a
milestone, it always stops processing: it never falls through to the
generic staleness pipeline, leaves the issue record untouched, and at
most posts reminder comments. -/
theorem mlflowBranch_stops_on_milestone (opts : IIssuesProcessorOptions)
    (maintainers : List String) (env : Env) (now : Nat) (st : PState)
    (m : IMilestone)
    (hpr : st.issue.isPullRequest = false)
    (hmil : st.issue.milestone = some m) :
    ∃ st', mlflowBranch opts maintainers env now st = .inl st' ∧
      st'.issue = st.issue ∧
      (∀ a ∈ st'.effects, a ∈ st.effects ∨ ∃ b, a = Action.createComment b) := by
  unfold mlflowBranch
  simp only [hpr, Bool.false_eq_true, if_false, ite_false]
  repeat' split
  all_goals try
    refine ⟨_, rfl, by simp, ?_⟩
  all_goals try
    (intro a ha
     first
     | exact Or.inl (by simpa using ha)
     | (rcases createComment_effects_sub _ _ _ a ha with h | h
        · exact Or.inl (by simpa using h)
        · exact Or.inr ⟨_, h⟩))
  all_goals simp_all

/-- C5 (amended): a milestoned, NOT-YET-STALE, non-PR issue whose
comment history contains a maintainer comment, processed with nudge mode
on, is never given the stale label and never closed, regardless of how
long ago it was updated: the issue record is left untouched and no
label-adding or closing platform call is issued. -/
theorem nudge_milestone_never_staled_nor_closed
    (opts : IIssuesProcessorOptions) (maintainers : List String) (env : Env)
    (now : Nat) (issue : Issue) (la lr : List String) (m : IMilestone)
    (cs : List IComment)
    (hm : opts.mlflow = true)
    (hpr : issue.isPullRequest = false)
    (hstale : issue.isStale = false)
    (hmil : issue.milestone = some m)
    (hcm : env.comments issue.created_at = .ok cs)
    (hmc : cs.any (fun c => match c.user with
      | some u => isMaintainer maintainers u
      | none => false) = true) :
    ∃ st, processIssue opts maintainers env now issue la lr = .ok st ∧
      st.issue = issue ∧
      (∀ ls, Action.addLabels ls ∉ st.effects) ∧
      Action.closeIssue ∉ st.effects := by
  have hcore : ∃ st', processIssueCore opts maintainers env now issue = .inl st' ∧
      st'.issue = issue ∧
      (∀ a ∈ st'.effects,
        (∃ l, a = Action.removeLabel l) ∨ (∃ b, a = Action.createComment b)) := by
    unfold processIssueCore
    simp only []
    split
    · exact ⟨_, rfl, rfl, by simp⟩
    split
    · exact ⟨_, rfl, rfl, by simp⟩
    split
    · exact ⟨_, rfl, rfl, by simp⟩
    split
    · refine ⟨_, rfl, by simp, ?_⟩
      intro a hmem
      rcases removeCloseLabel_effects_sub _ _ _ _ hmem with h | h
      · simp at h
      · exact Or.inl ⟨_, h⟩
    · rw [if_pos (by simp [hm, hstale])]
      obtain ⟨st', hb, hissue, heff⟩ := mlflowBranch_stops_on_milestone opts
        maintainers env now
        (removeCloseLabel opts { issue := issue }
          (if issue.isPullRequest then opts.closePrLabel else opts.closeIssueLabel))
        m (by simp [hpr]) (by simp [hmil])
      rw [hb]
      refine ⟨st', rfl, by rw [hissue]; simp, ?_⟩
      intro a hmem
      rcases heff _ hmem with h | ⟨b, hb'⟩
      · rcases removeCloseLabel_effects_sub _ _ _ _ h with h2 | h2
        · simp at h2
        · exact Or.inl ⟨_, h2⟩
      · exact Or.inr ⟨_, hb'⟩
  obtain ⟨st', hcore, hissue, heff⟩ := hcore
  refine ⟨st', ?_, hissue, ?_, ?_⟩
  · unfold processIssue
    rw [hcore]
  · intro ls hmem
    rcases heff _ hmem with ⟨l, h⟩ | ⟨b, h⟩ <;> simp at h
  · intro hmem
    rcases heff _ hmem with ⟨l, h⟩ | ⟨b, h⟩ <;> simp at h

/-- Platform responses for the C5 counterexample: one maintainer comment
created at time 10 (visible to history queries, gone for queries since
the stale-labeling event), and a stale-labeling event at time 1000000. -/
def c5Env : Env := {
  comments := fun s =>
    .ok (if s ≤ 10 then [⟨some ⟨"m1", "User"⟩, some "triaging", some 10⟩] else [])
  events := .ok [⟨"labeled", "stale", 1000000⟩]
  pullRequest := .error ()
}

/-- The C5 counterexample issue: milestoned, already stale. -/
def c5Issue : Issue := { defIssue with
  labels := [⟨"Stale"⟩]
  isStale := true
  milestone := some ⟨"v1"⟩
}

/-- C5 counterexample: an ALREADY-STALE milestoned issue whose comment
history contains a maintainer comment is closed by the run even with
nudge mode on — the nudge branch (and its milestone shield) only applies
to issues that are not yet stale, refuting "never closed, regardless". -/
theorem nudge_milestone_stale_closed_cex :
    (∃ cs, c5Env.comments c5Issue.created_at = .ok cs ∧
      cs.any (fun c => match c.user with
        | some u => isMaintainer ["m1"] u
        | none => false) = true) ∧
    (∃ st, processIssue { defOpts with mlflow := true } ["m1"] c5Env 8640000000
        c5Issue [] [] = .ok st ∧ Action.closeIssue ∈ st.effects) := by
  refine ⟨⟨_, rfl, by decide⟩, _, rfl, by decide⟩

/-- Platform responses for the C5 witness: a single maintainer comment. -/
def c5WitEnv : Env := {
  comments := fun _ => .ok [⟨some ⟨"m1", "User"⟩, some "hello", some 10⟩]
  events := .ok []
  pullRequest := .error ()
}

/-- C5 witness: a concrete non-stale milestoned issue with a maintainer
comment, nudge mode on, idle a hundred days: not staled, not closed. -/
theorem nudge_milestone_never_staled_witness :
    ∃ st, processIssue { defOpts with mlflow := true } ["m1"] c5WitEnv
        8640000000 { defIssue with milestone := some ⟨"v1"⟩ } [] [] = .ok st ∧
      st.issue = { defIssue with milestone := some ⟨"v1"⟩ } ∧
      (∀ ls, Action.addLabels ls ∉ st.effects) ∧
      Action.closeIssue ∉ st.effects :=
  nudge_milestone_never_staled_nor_closed { defOpts with mlflow := true } ["m1"]
    c5WitEnv 8640000000 { defIssue with milestone := some ⟨"v1"⟩ } [] [] ⟨"v1"⟩
    [⟨some ⟨"m1", "User"⟩, some "hello", some 10⟩]
    rfl rfl rfl rfl rfl (by decide)

/-- The create-comment platform calls among a run's effects, in order. -/
def commentsCreated (effects : List Action) : List String :=
  effects.filterMap (fun a => match a with
    | .createComment b => some b
    | _ => none)

/-- The body of the assign-maintainer reminder comment. -/
def assignMaintainerBody : String :=
  tagAssignMaintainer ++ "\n" ++
    createMentions ["BenWilson2", "dbczumar", "harupy", "WeichenXu123"] ++
    " Please assign a maintainer and start triaging this issue."

theorem listIssueComments_eq (env : Env) (st : PState) (d : Nat)
    (cs : List IComment) (hcs : env.comments d = .ok cs) :
    listIssueComments env st d = (consumeIssueOperation st, cs) := by
  unfold listIssueComments
  rw [hcs]

theorem createComment_effects_nodebug (opts : IIssuesProcessorOptions)
    (st : PState) (body : String) (h : opts.debugOnly = false) :
    (createComment opts st body).effects = st.effects ++ [.createComment body] := by
  unfold createComment
  simp [h, emit]

theorem commentsCreated_removeCloseLabel (opts : IIssuesProcessorOptions)
    (st : PState) (label : String) :
    commentsCreated (removeCloseLabel opts st label).effects =
      commentsCreated st.effects := by
  unfold removeCloseLabel removeLabel
  repeat' split
  all_goals simp [emit, commentsCreated]

/-- The nudge branch on an old-enough issue with no maintainer assignee:
post the assign-maintainer reminder unless a comment in the history
already carries its marker, and stop either way. -/
theorem mlflowBranch_assign (opts : IIssuesProcessorOptions)
    (maintainers : List String) (env : Env) (now : Nat) (st : PState)
    (cs : List IComment)
    (hpr : st.issue.isPullRequest = false)
    (hage : isOlderThanDaysAgo now st.issue.created_at
      opts.daysBeforeTriageReminders = true)
    (hnoassign : st.issue.assignees.any (isMaintainer maintainers) = false)
    (hcs : env.comments st.issue.created_at = .ok cs) :
    mlflowBranch opts maintainers env now st =
      .inl (if cs.any (fun c => match c.body with
          | some b => hasSub b tagAssignMaintainer
          | none => false) then consumeIssueOperation st
        else createComment opts (consumeIssueOperation st) assignMaintainerBody) := by
  unfold mlflowBranch
  rw [listIssueComments_eq env st st.issue.created_at cs hcs]
  simp only [hpr, hage, hnoassign, Bool.not_true, Bool.not_false,
    Bool.false_eq_true, Bool.true_eq_false, if_false, ite_false, if_true, ite_true]
  cases hs : cs.any (fun c => match c.body with
      | some b => hasSub b tagAssignMaintainer
      | none => false) <;>
    simp [hs, assignMaintainerBody]

theorem processIssue_assign_reminder_run (opts : IIssuesProcessorOptions)
    (maintainers : List String) (env : Env) (now : Nat) (issue : Issue)
    (la lr : List String) (cs : List IComment)
    (hm : opts.mlflow = true)
    (hpr : issue.isPullRequest = false)
    (hstate : (issue.state == "closed") = false)
    (hlock : issue.locked = false)
    (honly : onlyLabelsGateBlocks opts issue = false)
    (hstart : startDateGateBlocks opts issue = false)
    (hstale : issue.isStale = false)
    (hage : isOlderThanDaysAgo now issue.created_at
      opts.daysBeforeTriageReminders = true)
    (hnoassign : issue.assignees.any (isMaintainer maintainers) = false)
    (hcs : env.comments issue.created_at = .ok cs) :
    processIssue opts maintainers env now issue la lr =
      .ok (if cs.any (fun c => match c.body with
          | some b => hasSub b tagAssignMaintainer
          | none => false) then
        consumeIssueOperation (removeCloseLabel opts { issue := issue }
          (if issue.isPullRequest then opts.closePrLabel else opts.closeIssueLabel))
      else createComment opts
        (consumeIssueOperation (removeCloseLabel opts { issue := issue }
          (if issue.isPullRequest then opts.closePrLabel else opts.closeIssueLabel)))
        assignMaintainerBody) := by
  unfold processIssue processIssueCore
  simp only [hstate, hlock, honly, hstart, Bool.false_eq_true, if_false,
    ite_false, ite_true, if_true]
  rw [if_pos (by simp [hm, hstale])]
  rw [mlflowBranch_assign opts maintainers env now _ cs (by simp [hpr])
    (by simpa using hage) (by simpa using hnoassign) (by simpa using hcs)]

/-- C6: the assign-maintainer reminder is posted exactly once and is
idempotent.  A first run over a history with no assign-maintainer marker
creates exactly one comment — the assign-maintainer reminder, carrying
its hidden marker and the fixed maintainer mention list — and a second
run of the engine over a comment history that contains that marker
creates zero comments. -/
theorem assign_reminder_once_and_idempotent (opts : IIssuesProcessorOptions)
    (maintainers : List String) (env1 env2 : Env) (now : Nat) (issue : Issue)
    (la lr : List String) (cs1 cs2 : List IComment)
    (hm : opts.mlflow = true)
    (hpr : issue.isPullRequest = false)
    (hstate : (issue.state == "closed") = false)
    (hlock : issue.locked = false)
    (honly : onlyLabelsGateBlocks opts issue = false)
    (hstart : startDateGateBlocks opts issue = false)
    (hstale : issue.isStale = false)
    (hage : isOlderThanDaysAgo now issue.created_at
      opts.daysBeforeTriageReminders = true)
    (hnoassign : issue.assignees.any (isMaintainer maintainers) = false)
    (hdebug : opts.debugOnly = false)
    (hcs1 : env1.comments issue.created_at = .ok cs1)
    (hnomark : cs1.any (fun c => match c.body with
      | some b => hasSub b tagAssignMaintainer
      | none => false) = false)
    (hcs2 : env2.comments issue.created_at = .ok cs2)
    (hmark2 : cs2.any (fun c => match c.body with
      | some b => hasSub b tagAssignMaintainer
      | none => false) = true) :
    ∃ st1 st2,
      processIssue opts maintainers env1 now issue la lr = .ok st1 ∧
      processIssue opts maintainers env2 now issue la lr = .ok st2 ∧
      commentsCreated st1.effects = [assignMaintainerBody] ∧
      hasSub assignMaintainerBody tagAssignMaintainer = true ∧
      hasSub assignMaintainerBody
        (createMentions ["BenWilson2", "dbczumar", "harupy", "WeichenXu123"]) = true ∧
      commentsCreated st2.effects = [] := by
  refine ⟨_, _,
    processIssue_assign_reminder_run opts maintainers env1 now issue la lr cs1
      hm hpr hstate hlock honly hstart hstale hage hnoassign hcs1,
    processIssue_assign_reminder_run opts maintainers env2 now issue la lr cs2
      hm hpr hstate hlock honly hstart hstale hage hnoassign hcs2,
    ?_, by decide, by decide, ?_⟩
  · rw [hnomark]
    simp only [Bool.false_eq_true, if_false, ite_false]
    rw [createComment_effects_nodebug opts _ _ hdebug]
    simp [commentsCreated, commentsCreated_removeCloseLabel]
    have := commentsCreated_removeCloseLabel opts { issue := issue }
      (if issue.isPullRequest then opts.closePrLabel else opts.closeIssueLabel)
    simpa [commentsCreated] using this
  · rw [hmark2]
    simp only [if_true, ite_true, consumeIssueOperation_effects]
    have := commentsCreated_removeCloseLabel opts { issue := issue }
      (if issue.isPullRequest then opts.closePrLabel else opts.closeIssueLabel)
    simpa [commentsCreated] using this

/-- Platform responses for the second run of the C6 witness: the history
now holds the bot's assign-maintainer reminder. -/
def c6SecondRunEnv : Env := {
  comments := fun _ =>
    .ok [⟨some ⟨"bot", "Bot"⟩, some assignMaintainerBody, some 100⟩]
  events := .ok []
  pullRequest := .error ()
}

/-- C6 witness: on a concrete eight-day-old unassigned issue, the first
run creates exactly the assign-maintainer reminder and the second run
(whose history holds it) creates nothing. -/
theorem assign_reminder_once_witness :
    ∃ st1 st2,
      processIssue { defOpts with mlflow := true } [] emptyEnv 691200000
        defIssue [] [] = .ok st1 ∧
      processIssue { defOpts with mlflow := true } [] c6SecondRunEnv 691200000
        defIssue [] [] = .ok st2 ∧
      commentsCreated st1.effects = [assignMaintainerBody] ∧
      hasSub assignMaintainerBody tagAssignMaintainer = true ∧
      hasSub assignMaintainerBody
        (createMentions ["BenWilson2", "dbczumar", "harupy", "WeichenXu123"]) = true ∧
      commentsCreated st2.effects = [] :=
  assign_reminder_once_and_idempotent { defOpts with mlflow := true } []
    emptyEnv c6SecondRunEnv 691200000 defIssue [] [] []
    [⟨some ⟨"bot", "Bot"⟩, some assignMaintainerBody, some 100⟩]
    rfl rfl (by decide) rfl (by decide) (by decide) rfl (by decide) (by decide)
    rfl rfl (by decide) rfl (by decide)

theorem isOlderThanDaysAgo_truncSec_false (now : Nat) (d : Int)
    (hd : 1 ≤ d) : isOlderThanDaysAgo now (truncSec now) d = false := by
  rw [isOlderThanDaysAgo, decide_eq_false_iff_not, Int.not_le]
  have h1 : (truncSec now : Int) ≤ now := by
    unfold truncSec
    exact_mod_cast Nat.div_mul_le_self now 1000
  have h2 : (now : Int) - truncSec now < 1000 := by
    unfold truncSec
    have : now - now / 1000 * 1000 < 1000 := by
      have := Nat.mod_lt now (show 0 < 1000 by decide)
      omega
    omega
  unfold msPerDay
  omega

/-- The nudge branch when the last comment of an old-enough issue with a
maintainer assignee has no creation timestamp: the current time is
substituted, so a positive reply-reminder threshold always fails the age
gate and the branch stops without posting anything. -/
theorem mlflowBranch_no_comment_date_stops (opts : IIssuesProcessorOptions)
    (maintainers : List String) (env : Env) (now : Nat) (st : PState)
    (cs : List IComment) (lc : IComment)
    (hpr : st.issue.isPullRequest = false)
    (hage : isOlderThanDaysAgo now st.issue.created_at
      opts.daysBeforeTriageReminders = true)
    (hassign : st.issue.assignees.any (isMaintainer maintainers) = true)
    (hcs : env.comments st.issue.created_at = .ok cs)
    (hlast : cs.getLast? = some lc)
    (hnodate : lc.created_at = none)
    (hnopr : st.issue.labels.any (fun l => l.name == "has-closing-pr") = false)
    (hreply : 1 ≤ opts.daysBeforeReplyReminder) :
    mlflowBranch opts maintainers env now st = .inl (consumeIssueOperation st) := by
  unfold mlflowBranch
  rw [listIssueComments_eq env st st.issue.created_at cs hcs]
  simp only [hpr, hage, hassign, Bool.not_true, Bool.not_false,
    Bool.false_eq_true, Bool.true_eq_false, if_false, ite_false, if_true, ite_true]
  rw [hlast]
  simp only [hnopr, hnodate, Option.getD_none, Bool.false_eq_true, if_false,
    ite_false,
    isOlderThanDaysAgo_truncSec_false now opts.daysBeforeReplyReminder hreply,
    Bool.not_false, if_true, ite_true, getNow]
  split <;> rfl

/-- C10: for every issue reaching the nudge branch's last-comment
inspection with a last comment lacking a creation timestamp, the engine
substitutes the current time, so a positive `daysBeforeReplyReminder`
always fails the age gate: processing stops, no comment is created, and
the issue record is untouched. -/
theorem no_comment_date_stops_processing (opts : IIssuesProcessorOptions)
    (maintainers : List String) (env : Env) (now : Nat) (issue : Issue)
    (la lr : List String) (cs : List IComment) (lc : IComment)
    (hm : opts.mlflow = true)
    (hpr : issue.isPullRequest = false)
    (hstate : (issue.state == "closed") = false)
    (hlock : issue.locked = false)
    (honly : onlyLabelsGateBlocks opts issue = false)
    (hstart : startDateGateBlocks opts issue = false)
    (hstale : issue.isStale = false)
    (hage : isOlderThanDaysAgo now issue.created_at
      opts.daysBeforeTriageReminders = true)
    (hassign : issue.assignees.any (isMaintainer maintainers) = true)
    (hcs : env.comments issue.created_at = .ok cs)
    (hlast : cs.getLast? = some lc)
    (hnodate : lc.created_at = none)
    (hnopr : issue.labels.any (fun l => l.name == "has-closing-pr") = false)
    (hreply : 1 ≤ opts.daysBeforeReplyReminder) :
    ∃ st, processIssue opts maintainers env now issue la lr = .ok st ∧
      st.issue = issue ∧ commentsCreated st.effects = [] := by
  unfold processIssue processIssueCore
  simp only [hstate, hlock, honly, hstart, Bool.false_eq_true, if_false,
    ite_false, ite_true, if_true]
  rw [if_pos (by simp [hm, hstale])]
  rw [mlflowBranch_no_comment_date_stops opts maintainers env now _ cs lc
    (by simp [hpr]) (by simpa using hage) (by simpa using hassign)
    (by simpa using hcs) hlast hnodate (by simpa using hnopr) hreply]
  refine ⟨_, rfl, by simp, ?_⟩
  simp only [consumeIssueOperation_effects]
  have := commentsCreated_removeCloseLabel opts { issue := issue }
    (if issue.isPullRequest then opts.closePrLabel else opts.closeIssueLabel)
  simpa [commentsCreated] using this

/-- C10 witness: a concrete issue with a maintainer assignee whose only
comment lacks a creation timestamp gets no reminder. -/
theorem no_comment_date_stops_witness :
    ∃ st, processIssue { defOpts with mlflow := true } ["m1"]
        { comments := fun _ => .ok [⟨some ⟨"u", "User"⟩, some "hello", none⟩]
          events := .ok []
          pullRequest := .error () } 8640000007
        { defIssue with assignees := [⟨"m1", "User"⟩] } [] [] = .ok st ∧
      st.issue = { defIssue with assignees := [⟨"m1", "User"⟩] } ∧
      commentsCreated st.effects = [] :=
  no_comment_date_stops_processing { defOpts with mlflow := true } ["m1"]
    { comments := fun _ => .ok [⟨some ⟨"u", "User"⟩, some "hello", none⟩]
      events := .ok []
      pullRequest := .error () } 8640000007
    { defIssue with assignees := [⟨"m1", "User"⟩] } [] []
    [⟨some ⟨"u", "User"⟩, some "hello", none⟩] ⟨some ⟨"u", "User"⟩, some "hello", none⟩
    rfl rfl (by decide) rfl (by decide) (by decide) rfl (by decide) (by decide)
    rfl rfl rfl (by decide) (by decide)

/-- C7 counterexample: in debug-only mode, `createComment` neither makes
the platform call nor consumes an operation-budget unit — the operation
consumption sits inside the debug guard, refuting "one unit is still
consumed" for the create-comment mutation. -/
theorem debug_createComment_no_budget_cex :
    ({ defOpts with debugOnly := true } : IIssuesProcessorOptions).debugOnly = true ∧
    (createComment { defOpts with debugOnly := true } { issue := defIssue } "x").ops =
      ({ issue := defIssue } : PState).ops ∧
    (createComment { defOpts with debugOnly := true } { issue := defIssue } "x").effects =
      [] := by
  exact ⟨rfl, rfl, rfl⟩

/-- C7 (amended): with the debug-only flag set, every side-effecting
mutation helper makes no platform call and still consumes one
operation-budget unit per suppressed mutation (`_removeLabel` one unit;
`_markStale` one per suppressed comment/label call; `_closeIssue` one
per suppressed comment/label/update call; `_addLabelsWhenUnstale` one;
`_deleteBranch` one for the pull-request read plus one for the
suppressed branch deletion) — except `createComment`, which consumes
nothing because its operation accounting sits inside the debug guard. -/
theorem debug_only_mutation_budget (opts : IIssuesProcessorOptions)
    (env : Env) (now : Nat) (st : PState) (b msg label l cm cl : String)
    (ls : List String) (skip : Bool) (pr : IPullRequest)
    (hdebug : opts.debugOnly = true)
    (hpr : env.pullRequest = .ok pr) :
    (createComment opts st b).effects = st.effects ∧
    (createComment opts st b).ops = st.ops ∧
    (removeLabel opts st l).effects = st.effects ∧
    (removeLabel opts st l).ops = st.ops + 1 ∧
    (markStale opts now st msg label skip).effects = st.effects ∧
    (markStale opts now st msg label skip).ops =
      st.ops + (if skip then 1 else 2) ∧
    (closeIssue opts st cm cl).effects = st.effects ∧
    (closeIssue opts st cm cl).ops =
      st.ops + ((if cm != "" then 1 else 0) + (if cl != "" then 1 else 0) + 1) ∧
    (addLabelsWhenUnstale opts st (l :: ls)).effects = st.effects ∧
    (addLabelsWhenUnstale opts st (l :: ls)).ops = st.ops + 1 ∧
    (deleteBranch opts env st).effects = st.effects ∧
    (deleteBranch opts env st).ops = st.ops + 2 := by
  refine ⟨?_, ?_, ?_, ?_, ?_, ?_, ?_, ?_, ?_, ?_, ?_, ?_⟩
  · unfold createComment
    simp [hdebug]
  · unfold createComment
    simp [hdebug]
  · unfold removeLabel
    simp [hdebug]
  · unfold removeLabel
    simp [hdebug, consumeIssueOperation]
  · unfold markStale
    cases skip <;> simp [hdebug, consumeIssueOperation]
  · unfold markStale
    cases skip <;> simp [hdebug, consumeIssueOperation]
  · unfold closeIssue
    repeat' split
    all_goals simp [hdebug, consumeIssueOperation]
  · unfold closeIssue
    repeat' split
    all_goals simp_all [consumeIssueOperation]
  · unfold addLabelsWhenUnstale
    simp [hdebug]
  · unfold addLabelsWhenUnstale
    simp [hdebug, consumeIssueOperation]
  · unfold deleteBranch getPullRequest
    rw [hpr]
    simp [hdebug]
  · unfold deleteBranch getPullRequest
    rw [hpr]
    simp [hdebug, consumeIssueOperation]

/-- C7 witness: concrete debug-mode evaluations — `createComment`
consumes zero, label removal one, marking stale two, closing three (with
message and label configured), unstale label adding one, branch deletion
two; none makes a platform call. -/
theorem debug_only_mutation_budget_witness :
    (createComment { defOpts with debugOnly := true } { issue := defIssue } "x").effects =
      ([] : List Action) ∧
    (createComment { defOpts with debugOnly := true } { issue := defIssue } "x").ops = 0 ∧
    (removeLabel { defOpts with debugOnly := true } { issue := defIssue } "L").effects =
      ([] : List Action) ∧
    (removeLabel { defOpts with debugOnly := true } { issue := defIssue } "L").ops = 1 ∧
    (markStale { defOpts with debugOnly := true } 5000 { issue := defIssue }
      "m" "Stale" false).effects = ([] : List Action) ∧
    (markStale { defOpts with debugOnly := true } 5000 { issue := defIssue }
      "m" "Stale" false).ops = 2 ∧
    (closeIssue { defOpts with debugOnly := true } { issue := defIssue }
      "c" "closed").effects = ([] : List Action) ∧
    (closeIssue { defOpts with debugOnly := true } { issue := defIssue }
      "c" "closed").ops = 3 ∧
    (addLabelsWhenUnstale { defOpts with debugOnly := true } { issue := defIssue }
      ["L"]).effects = ([] : List Action) ∧
    (addLabelsWhenUnstale { defOpts with debugOnly := true } { issue := defIssue }
      ["L"]).ops = 1 ∧
    (deleteBranch { defOpts with debugOnly := true }
      { emptyEnv with pullRequest := .ok ⟨false, "b"⟩ } { issue := defIssue }).effects =
      ([] : List Action) ∧
    (deleteBranch { defOpts with debugOnly := true }
      { emptyEnv with pullRequest := .ok ⟨false, "b"⟩ } { issue := defIssue }).ops = 2 :=
  debug_only_mutation_budget { defOpts with debugOnly := true }
    { emptyEnv with pullRequest := .ok ⟨false, "b"⟩ } 5000 { issue := defIssue }
    "x" "m" "Stale" "L" "c" "closed" [] false ⟨false, "b"⟩ rfl rfl

end Stale
